import Mathlib

/-!
# Verification of the PGNC batch association writer (`src/pgncdb/inserts.py`)

This file gives a shallow embedding of the four association-writer functions
`add_gene_location`, `add_gene_locus_type`, `add_gene_name`, `add_gene_symbol`
and proves/refutes the frozen claims about them.

The database is modelled as explicit lists of rows.  Each writer is a pure
function from a database state and an input batch to a `RunResult` recording
the final database state, the Python-level outcome (normal return, raised
`ValueError`, or raised `RuntimeError`), the warnings emitted via
`logging.warning`, and the number of read (SELECT) statements executed by the
reconciliation pass.

Modelling decisions (all taken from the source, not from the spec):
* The only database error the model raises is a uniqueness violation
  (SQLSTATE 23505): the `name`/`symbol` tables are unique on their literal
  column, and each association table is unique on its `(gene_id, <dim>_id)`
  pair, as the source's error handling and the schema documentation assume.
* `cursor.rowcount` after `executemany` is the total number of rows affected
  by the batch; after a single `execute` it is that statement's row count.
* A failing SQL statement inserts nothing (statements are atomic); rows
  written by earlier statements of the same call remain, since the component
  never rolls back.
* Generated surrogate ids (`INSERT ... RETURNING id`) come from a counter in
  the state (`next_name_id` / `next_symbol_id`).
-/

set_option autoImplicit false

namespace PgncUpload

/-- A row of `gene_has_location` or `gene_has_locus_type`:
`(gene_id, location_id | locus_type_id, creator_id, editor_id, status)`. -/
structure AssocRow where
  gene_id : Nat
  dim_id : Nat
  creator_id : Nat
  editor_id : Nat
  status : String
deriving DecidableEq, Repr

/-- A row of `gene_has_name` or `gene_has_symbol`:
`(gene_id, name_id | symbol_id, type, creator_id, editor_id, status)`. -/
structure TypedAssocRow where
  gene_id : Nat
  dim_id : Nat
  type : String
  creator_id : Nat
  editor_id : Nat
  status : String
deriving DecidableEq, Repr

/-- The relational state visible to `inserts.py`.  Dimension tables are
`(surrogate id, natural key)` pairs; `assembly_has_location` is
`(assembly_id, location_id)`. -/
structure DB where
  gene : List (Nat × String)
  location : List (Nat × String)
  assembly_has_location : List (Nat × Nat)
  locus_type : List (Nat × String)
  name : List (Nat × String)
  symbol : List (Nat × String)
  next_name_id : Nat
  next_symbol_id : Nat
  gene_has_location : List AssocRow
  gene_has_locus_type : List AssocRow
  gene_has_name : List TypedAssocRow
  gene_has_symbol : List TypedAssocRow
deriving DecidableEq, Repr

/-- A Python exception escaping one of the four functions. -/
inductive PyErr where
  | valueError (msg : String)
  | runtimeError (msg : String)
deriving DecidableEq, Repr

/-- What one call to a writer produced: the database state when the call
ended (normally or by raising), the raised exception if any, the warnings
logged, and how many reconciliation SELECT statements ran. -/
structure RunResult where
  db : DB
  error : Option PyErr
  warnings : List String
  auditReads : Nat
deriving DecidableEq, Repr

/-- The `(gene_id, dim_id)` key pairs of an association table
(`SELECT gene_id, <dim>_id FROM <assoc table>`). -/
def assocPairs (t : List AssocRow) : List (Nat × Nat) :=
  t.map fun r => (r.gene_id, r.dim_id)

/-- The key pairs of a typed association table. -/
def typedAssocPairs (t : List TypedAssocRow) : List (Nat × Nat) :=
  t.map fun r => (r.gene_id, r.dim_id)

/-- Insert rows into an association table one by one, enforcing uniqueness of
the `(gene_id, dim_id)` pair; a violation aborts the statement atomically
(SQLSTATE 23505). -/
def insertAssocRows (t : List AssocRow) : List AssocRow → Except Unit (List AssocRow)
  | [] => .ok t
  | r :: rs =>
    if (r.gene_id, r.dim_id) ∈ assocPairs t then .error ()
    else insertAssocRows (t ++ [r]) rs

/-- Insert rows into a typed association table, enforcing uniqueness of the
`(gene_id, dim_id)` pair. -/
def insertTypedRows (t : List TypedAssocRow) : List TypedAssocRow → Except Unit (List TypedAssocRow)
  | [] => .ok t
  | r :: rs =>
    if (r.gene_id, r.dim_id) ∈ typedAssocPairs t then .error ()
    else insertTypedRows (t ++ [r]) rs

/-! ## `add_gene_location` -/

/-- The rows produced by the `INSERT ... SELECT` of `add_gene_location` for one
`(potri_id, location_name)` parameter pair: the cross join of `gene`,
`location` and `assembly_has_location` filtered by
`gene.potri_id = %s AND location.name = %s AND
assembly_has_location.assembly_id = 1 AND
location.id = assembly_has_location.location_id`. -/
def locationSelect (db : DB) (potri locname : String) : List (Nat × Nat) :=
  (db.gene.filter fun g => g.2 = potri).flatMap fun g =>
    (db.location.filter fun l => l.2 = locname).flatMap fun l =>
      (db.assembly_has_location.filter fun a => a.1 = 1 ∧ a.2 = l.1).map fun _ => (g.1, l.1)

/-- The association rows the statement writes, with the hard-coded provenance
columns `1, 1, 'internal'`. -/
def locationSelectRows (db : DB) (potri locname : String) : List AssocRow :=
  (locationSelect db potri locname).map fun p =>
    { gene_id := p.1, dim_id := p.2, creator_id := 1, editor_id := 1, status := "internal" }

/-- `cur.executemany` of the gene–location insert: one statement per input
pair, accumulating the affected-row count; a uniqueness violation aborts with
the table as left by the previous statements. -/
def locExecutemany (db : DB) : List (String × String) → Except DB (DB × Nat)
  | [] => .ok (db, 0)
  | (p, l) :: rest =>
    match insertAssocRows db.gene_has_location (locationSelectRows db p l) with
    | .error _ => .error db
    | .ok t =>
      match locExecutemany { db with gene_has_location := t } rest with
      | .error d => .error d
      | .ok (d, c) => .ok (d, (locationSelectRows db p l).length + c)

/-- The per-item reconciliation query of `add_gene_location`
(`SELECT gene.id, location.id FROM gene, location WHERE gene.potri_id = %s
AND location.name = %s`) followed by `fetchone()`.  Note: unlike the
write-time select it has no `assembly_has_location` join. -/
def locationAuditResolve (db : DB) (potri locname : String) : Option (Nat × Nat) :=
  ((db.gene.filter fun g => g.2 = potri).flatMap fun g =>
    (db.location.filter fun l => l.2 = locname).map fun l => (g.1, l.1)).head?

/-- `result not in inserted_set` for one data item of `add_gene_location`
(a `None` result is never in the set). -/
def locationUnsuccessful (db : DB) (item : String × String) : Bool :=
  match locationAuditResolve db item.1 item.2 with
  | none => true
  | some pr => ¬ pr ∈ assocPairs db.gene_has_location

/-- The `ValueError` message of `add_gene_location`. -/
def dupLocationMsg : String :=
  "\n            The combination of PotriID and Location already exists in the gene_has_location\n            table.\n            See the exception above the ValueError for details.\n            "

/-- The warning text of `add_gene_location`: the header joined by a newline
with the `'\n '.join` of the formatted unsuccessful pairs. -/
def locationWarning (u : List (String × String)) : String :=
  String.intercalate "\n"
    ["The following rows were not inserted into the gene_has_location table:",
     String.intercalate "\n " (u.map fun it => "(" ++ it.1 ++ ", " ++ it.2 ++ ")")]

/-- The `RuntimeError` message of `add_gene_location` (an f-string holding the
two counts). -/
def locationConsistencyMsg (affected expected : Nat) : String :=
  "Affected rows (" ++ toString affected ++ ") do not match the number of rows to insert ("
    ++ toString expected ++ ") and yet no missing entries are found."

/-- `add_gene_location(cur, data)`. -/
def add_gene_location (db : DB) (data : List (String × String)) : RunResult :=
  match locExecutemany db data with
  | .error d => { db := d, error := some (.valueError dupLocationMsg), warnings := [], auditReads := 0 }
  | .ok (db1, affected_rows) =>
    if affected_rows = data.length then
      { db := db1, error := none, warnings := [], auditReads := 0 }
    else
      let unsuccessful := data.filter (locationUnsuccessful db1)
      if unsuccessful.isEmpty then
        { db := db1,
          error := some (.runtimeError (locationConsistencyMsg affected_rows data.length)),
          warnings := [], auditReads := 1 + data.length }
      else
        { db := db1, error := none, warnings := [locationWarning unsuccessful],
          auditReads := 1 + data.length }

/-! ## `add_gene_locus_type` -/

/-- The rows produced by the `INSERT ... SELECT` of `add_gene_locus_type` for
one `(potri_id, locus_type_name)` pair: the cross join of `gene` and
`locus_type` filtered by the two natural keys (no scoping join). -/
def locusTypeSelect (db : DB) (potri ltname : String) : List (Nat × Nat) :=
  (db.gene.filter fun g => g.2 = potri).flatMap fun g =>
    (db.locus_type.filter fun l => l.2 = ltname).map fun l => (g.1, l.1)

/-- The association rows written, with provenance `1, 1, 'internal'`. -/
def locusTypeSelectRows (db : DB) (potri ltname : String) : List AssocRow :=
  (locusTypeSelect db potri ltname).map fun p =>
    { gene_id := p.1, dim_id := p.2, creator_id := 1, editor_id := 1, status := "internal" }

/-- `cur.executemany` of the gene–locus-type insert. -/
def ltExecutemany (db : DB) : List (String × String) → Except DB (DB × Nat)
  | [] => .ok (db, 0)
  | (p, l) :: rest =>
    match insertAssocRows db.gene_has_locus_type (locusTypeSelectRows db p l) with
    | .error _ => .error db
    | .ok t =>
      match ltExecutemany { db with gene_has_locus_type := t } rest with
      | .error d => .error d
      | .ok (d, c) => .ok (d, (locusTypeSelectRows db p l).length + c)

/-- The per-item reconciliation query of `add_gene_locus_type` followed by
`fetchone()`; the same join as the write-time select. -/
def locusTypeAuditResolve (db : DB) (potri ltname : String) : Option (Nat × Nat) :=
  ((db.gene.filter fun g => g.2 = potri).flatMap fun g =>
    (db.locus_type.filter fun l => l.2 = ltname).map fun l => (g.1, l.1)).head?

/-- `result not in inserted_set` for one item of `add_gene_locus_type`. -/
def locusTypeUnsuccessful (db : DB) (item : String × String) : Bool :=
  match locusTypeAuditResolve db item.1 item.2 with
  | none => true
  | some pr => ¬ pr ∈ assocPairs db.gene_has_locus_type

/-- The `ValueError` message of `add_gene_locus_type`. -/
def dupLocusTypeMsg : String :=
  "\n            The combination of PotriID and Locus Type already exists in the gene_has_locus_type\n            table.\n            See the exception above the ValueError for details.\n            "

/-- The warning text of `add_gene_locus_type` (here the pairs are joined with
a bare newline). -/
def locusTypeWarning (u : List (String × String)) : String :=
  String.intercalate "\n"
    ["The following rows were not inserted into the gene_has_locus_type table:",
     String.intercalate "\n" (u.map fun it => "(" ++ it.1 ++ ", " ++ it.2 ++ ")")]

/-- The `RuntimeError` message of `add_gene_locus_type`. -/
def locusTypeConsistencyMsg : String :=
  "Affected rows do not match the number of rows to insert and yet no missing fields are found."

/-- `add_gene_locus_type(cur, data)`. -/
def add_gene_locus_type (db : DB) (data : List (String × String)) : RunResult :=
  match ltExecutemany db data with
  | .error d => { db := d, error := some (.valueError dupLocusTypeMsg), warnings := [], auditReads := 0 }
  | .ok (db1, affected_rows) =>
    if affected_rows = data.length then
      { db := db1, error := none, warnings := [], auditReads := 0 }
    else
      let unsuccessful := data.filter (locusTypeUnsuccessful db1)
      if unsuccessful.isEmpty then
        { db := db1, error := some (.runtimeError locusTypeConsistencyMsg),
          warnings := [], auditReads := 1 + data.length }
      else
        { db := db1, error := none, warnings := [locusTypeWarning unsuccessful],
          auditReads := 1 + data.length }

/-! ## `add_gene_name` -/

/-- The literal values currently in the `name` table. -/
def nameLiterals (db : DB) : List String := db.name.map fun r => r.2

/-- The literal values currently in the `symbol` table. -/
def symbolLiterals (db : DB) : List String := db.symbol.map fun r => r.2

/-- The `ValueError` message of `add_gene_name` (an f-string holding the
duplicate literal). -/
def dupNameMsg (nm : String) : String :=
  "\n                The name \"" ++ nm ++ "\" already exists in the name table.\n                See the exception above the ValueError for details.\n                "

/-- The `RuntimeError` message raised when the `gene_has_name` insert fails
(an f-string holding the three values). -/
def nameLinkFailMsg (name_id : Nat) (name_type potri_id : String) : String :=
  String.intercalate "\n"
    ["Problem inserting into gene_has_name with the values:",
     "\tName ID: " ++ toString name_id,
     "\tName type: " ++ name_type,
     "\tPOTRI ID:" ++ potri_id]

/-- The rows produced by the step-2 `INSERT ... SELECT` of `add_gene_name` for
one triple, once the fresh `name_id` is known: one row per gene matching
`gene.potri_id = %s`, with the type classifier and provenance
`1, 1, 'internal'`. -/
def nameLinkRows (db : DB) (name_id : Nat) (name_type potri_id : String) : List TypedAssocRow :=
  (db.gene.filter fun g => g.2 = potri_id).map fun g =>
    { gene_id := g.1, dim_id := name_id, type := name_type,
      creator_id := 1, editor_id := 1, status := "internal" }

/-- One iteration of the `add_gene_name` loop on state `(db, cnt)`:
step 1 inserts the literal into `name` (RETURNING a fresh id; a duplicate
raises the `ValueError`), step 2 inserts the association rows (any database
error there raises the `RuntimeError`); on success `cnt` grows by the
statement's row count. -/
def nameStep (db : DB) (cnt : Nat) (item : String × String × String) :
    Except (DB × PyErr) (DB × Nat) :=
  let (potri_id, nm, name_type) := item
  if nm ∈ nameLiterals db then .error (db, .valueError (dupNameMsg nm))
  else
    let name_id := db.next_name_id
    let db1 := { db with name := db.name ++ [(name_id, nm)], next_name_id := name_id + 1 }
    let rows := nameLinkRows db1 name_id name_type potri_id
    match insertTypedRows db1.gene_has_name rows with
    | .error _ => .error (db1, .runtimeError (nameLinkFailMsg name_id name_type potri_id))
    | .ok t => .ok ({ db1 with gene_has_name := t }, cnt + rows.length)

/-- The `for` loop of `add_gene_name`, threading the database and the running
tally `cnt`; a raised exception carries the state at the raise. -/
def nameLoop (db : DB) (cnt : Nat) : List (String × String × String) → Except (DB × PyErr) (DB × Nat)
  | [] => .ok (db, cnt)
  | item :: rest =>
    match nameStep db cnt item with
    | .error e => .error e
    | .ok (db', cnt') => nameLoop db' cnt' rest

/-- The per-item reconciliation query of `add_gene_name`
(`SELECT gene.id, name.id FROM gene, name WHERE gene.potri_id = %s AND
name.name = %s`) followed by `fetchone()`. -/
def nameAuditResolve (db : DB) (potri nm : String) : Option (Nat × Nat) :=
  ((db.gene.filter fun g => g.2 = potri).flatMap fun g =>
    (db.name.filter fun r => r.2 = nm).map fun r => (g.1, r.1)).head?

/-- `result not in inserted_set` for one triple of `add_gene_name` (only the
first two components take part). -/
def nameUnsuccessful (db : DB) (item : String × String × String) : Bool :=
  match nameAuditResolve db item.1 item.2.1 with
  | none => true
  | some pr => ¬ pr ∈ typedAssocPairs db.gene_has_name

/-- The warning text of `add_gene_name` over the `(potri_id, name)` pairs of
the unsuccessful triples. -/
def nameWarning (u : List (String × String × String)) : String :=
  String.intercalate "\n"
    ["The following rows were not inserted into the gene_has_name:",
     String.intercalate "\n " (u.map fun it => "(" ++ it.1 ++ ", " ++ it.2.1 ++ ")")]

/-- The `RuntimeError` message of `add_gene_name`'s consistency check. -/
def nameConsistencyMsg : String :=
  "Affected rows do not match the number of rows to insert and yet no missing fields are found. Poss. type difference?"

/-- `add_gene_name(cur, data)`. -/
def add_gene_name (db : DB) (data : List (String × String × String)) : RunResult :=
  match nameLoop db 0 data with
  | .error (d, e) => { db := d, error := some e, warnings := [], auditReads := 0 }
  | .ok (db1, cnt) =>
    if cnt ≠ data.length then
      let unsuccessful := data.filter (nameUnsuccessful db1)
      if unsuccessful.isEmpty then
        { db := db1, error := some (.runtimeError nameConsistencyMsg),
          warnings := [], auditReads := 1 + data.length }
      else
        { db := db1, error := none, warnings := [nameWarning unsuccessful],
          auditReads := 1 + data.length }
    else
      { db := db1, error := none, warnings := [], auditReads := 0 }

/-! ## `add_gene_symbol` -/

/-- The `ValueError` message of `add_gene_symbol` (the source interpolates the
symbol into a message that still says "name table"). -/
def dupSymbolMsg (sym : String) : String :=
  "\n                The name \"" ++ sym ++ "\" already exists in the name table.\n                See the exception above the ValueError for details.\n                "

/-- The `RuntimeError` message when the `gene_has_symbol` insert fails (the
source's text still says `gene_has_name`). -/
def symbolLinkFailMsg (symbol_id : Nat) (symbol_type potri_id : String) : String :=
  String.intercalate "\n"
    ["Problem inserting into gene_has_name with the values:",
     "\tName ID: " ++ toString symbol_id,
     "\tName type: " ++ symbol_type,
     "\tPOTRI ID:" ++ potri_id]

/-- The rows of the step-2 `INSERT ... SELECT` of `add_gene_symbol`. -/
def symbolLinkRows (db : DB) (symbol_id : Nat) (symbol_type potri_id : String) : List TypedAssocRow :=
  (db.gene.filter fun g => g.2 = potri_id).map fun g =>
    { gene_id := g.1, dim_id := symbol_id, type := symbol_type,
      creator_id := 1, editor_id := 1, status := "internal" }

/-- One iteration of the `add_gene_symbol` loop. -/
def symbolStep (db : DB) (cnt : Nat) (item : String × String × String) :
    Except (DB × PyErr) (DB × Nat) :=
  let (potri_id, sym, symbol_type) := item
  if sym ∈ symbolLiterals db then .error (db, .valueError (dupSymbolMsg sym))
  else
    let symbol_id := db.next_symbol_id
    let db1 := { db with symbol := db.symbol ++ [(symbol_id, sym)], next_symbol_id := symbol_id + 1 }
    let rows := symbolLinkRows db1 symbol_id symbol_type potri_id
    match insertTypedRows db1.gene_has_symbol rows with
    | .error _ => .error (db1, .runtimeError (symbolLinkFailMsg symbol_id symbol_type potri_id))
    | .ok t => .ok ({ db1 with gene_has_symbol := t }, cnt + rows.length)

/-- The `for` loop of `add_gene_symbol`. -/
def symbolLoop (db : DB) (cnt : Nat) : List (String × String × String) → Except (DB × PyErr) (DB × Nat)
  | [] => .ok (db, cnt)
  | item :: rest =>
    match symbolStep db cnt item with
    | .error e => .error e
    | .ok (db', cnt') => symbolLoop db' cnt' rest

/-- The per-item reconciliation query of `add_gene_symbol` followed by
`fetchone()`. -/
def symbolAuditResolve (db : DB) (potri sym : String) : Option (Nat × Nat) :=
  ((db.gene.filter fun g => g.2 = potri).flatMap fun g =>
    (db.symbol.filter fun r => r.2 = sym).map fun r => (g.1, r.1)).head?

/-- `result not in inserted_set` for one triple of `add_gene_symbol`. -/
def symbolUnsuccessful (db : DB) (item : String × String × String) : Bool :=
  match symbolAuditResolve db item.1 item.2.1 with
  | none => true
  | some pr => ¬ pr ∈ typedAssocPairs db.gene_has_symbol

/-- The warning text of `add_gene_symbol`. -/
def symbolWarning (u : List (String × String × String)) : String :=
  String.intercalate "\n"
    ["The following rows were not inserted into the database:",
     String.intercalate "\n " (u.map fun it => "(" ++ it.1 ++ ", " ++ it.2.1 ++ ")")]

/-- The `RuntimeError` message of `add_gene_symbol`'s consistency check. -/
def symbolConsistencyMsg : String :=
  "Affected rows do not match the number of rows to insert and yet no missing fields are found. Poss. type difference?"

/-- `add_gene_symbol(cur, data)`. -/
def add_gene_symbol (db : DB) (data : List (String × String × String)) : RunResult :=
  match symbolLoop db 0 data with
  | .error (d, e) => { db := d, error := some e, warnings := [], auditReads := 0 }
  | .ok (db1, cnt) =>
    if cnt ≠ data.length then
      let unsuccessful := data.filter (symbolUnsuccessful db1)
      if unsuccessful.isEmpty then
        { db := db1, error := some (.runtimeError symbolConsistencyMsg),
          warnings := [], auditReads := 1 + data.length }
      else
        { db := db1, error := none, warnings := [symbolWarning unsuccessful],
          auditReads := 1 + data.length }
    else
      { db := db1, error := none, warnings := [], auditReads := 0 }

/-! ## Provenance predicates and concrete states used by witnesses -/

/-- The fixed provenance constants of the four writers. -/
def provenanceOk (r : AssocRow) : Prop :=
  r.creator_id = 1 ∧ r.editor_id = 1 ∧ r.status = "internal"

/-- The fixed provenance constants, typed-association variant. -/
def typedProvenanceOk (r : TypedAssocRow) : Prop :=
  r.creator_id = 1 ∧ r.editor_id = 1 ∧ r.status = "internal"

/-- A small concrete database: one gene `P1`, one location `LocA` linked to
assembly 1, one locus type `LT`, empty dimension and association tables. -/
def wdb : DB :=
  { gene := [(1, "P1")], location := [(2, "LocA")], assembly_has_location := [(1, 2)],
    locus_type := [(3, "LT")], name := [], symbol := [],
    next_name_id := 1, next_symbol_id := 1,
    gene_has_location := [], gene_has_locus_type := [], gene_has_name := [],
    gene_has_symbol := [] }

/-- `wdb` after a successful gene–location insert of `(P1, LocA)`. -/
def wdbLoc1 : DB :=
  { wdb with gene_has_location := [⟨1, 2, 1, 1, "internal"⟩] }

/-- `wdb` after a successful gene–locus-type insert of `(P1, LT)`. -/
def wdbLt1 : DB :=
  { wdb with gene_has_locus_type := [⟨1, 3, 1, 1, "internal"⟩] }

/-- `wdb` after a successful `add_gene_name` of `(P1, N, approved)`. -/
def wdbName1 : DB :=
  { wdb with name := [(1, "N")], next_name_id := 2,
             gene_has_name := [⟨1, 1, "approved", 1, 1, "internal"⟩] }

/-- `wdb` after a successful `add_gene_symbol` of `(P1, S, approved)`. -/
def wdbSym1 : DB :=
  { wdb with symbol := [(1, "S")], next_symbol_id := 2,
             gene_has_symbol := [⟨1, 1, "approved", 1, 1, "internal"⟩] }

/-- `wdb` with the `(P1, LocA)` and `(P1, LT)` associations already present:
a duplicate-conflict state for the joined bulk inserters. -/
def wdbDup : DB :=
  { wdb with gene_has_location := [⟨1, 2, 1, 1, "internal"⟩],
             gene_has_locus_type := [⟨1, 3, 1, 1, "internal"⟩] }

/-- A state where `LocA` exists but is not linked to assembly 1, while the
`(1, 2)` association row is already present: the write-time select matches
nothing, yet the audit query resolves `(P1, LocA)` to a persisted pair. -/
def wdbGhost : DB :=
  { wdb with assembly_has_location := [],
             gene_has_location := [⟨1, 2, 1, 1, "internal"⟩] }

/-- A state with two gene rows sharing the natural key `P1`: one name triple
then inserts two association rows, so the tally exceeds the input length
while the audit finds nothing missing. -/
def wdbTwin : DB :=
  { wdb with gene := [(1, "P1"), (2, "P1")] }

/-- A state whose `gene_has_name` table already holds a row whose `name_id`
equals the next generated id: the step-2 insert of `add_gene_name` then hits
the uniqueness constraint on `(gene_id, name_id)`. -/
def wdbClash : DB :=
  { wdb with gene := [(5, "P1")],
             gene_has_name := [⟨5, 1, "x", 1, 1, "internal"⟩] }

/-- The symbol-side analogue of `wdbClash`: `gene_has_symbol` already holds a
row whose `symbol_id` equals the next generated id, so the step-2 insert of
`add_gene_symbol` hits the uniqueness constraint on `(gene_id, symbol_id)`. -/
def wdbClashSym : DB :=
  { wdb with gene := [(5, "P1")],
             gene_has_symbol := [⟨5, 1, "x", 1, 1, "internal"⟩] }

/-- `wdb` without the assembly link for `LocA`: the state on which the
write-time and audit-time resolutions of `(P1, LocA)` disagree. -/
def wdbNoAsm : DB :=
  { wdb with assembly_has_location := [] }

/-- `wdbTwin` after `add_gene_name` processed `(P1, N, approved)`: two
association rows were written for the single triple. -/
def wdbTwin1 : DB :=
  { wdbTwin with name := [(1, "N")], next_name_id := 2,
                 gene_has_name := [⟨1, 1, "approved", 1, 1, "internal"⟩,
                                   ⟨2, 1, "approved", 1, 1, "internal"⟩] }

/-- `wdb` after `add_gene_name` processed a triple whose gene `P9` does not
resolve: the name row is written but no association row is. -/
def wdbOrphan : DB :=
  { wdb with name := [(1, "N")], next_name_id := 2 }

/-- How a run of `add_gene_location` can change the database: it only appends
association rows, all carrying the fixed provenance constants. -/
def locEffects (db d : DB) : Prop :=
  ∃ rows, d.gene_has_location = db.gene_has_location ++ rows ∧ ∀ r ∈ rows, provenanceOk r

/-- How a run of `add_gene_locus_type` can change `gene_has_locus_type`. -/
def ltEffects (db d : DB) : Prop :=
  ∃ rows, d.gene_has_locus_type = db.gene_has_locus_type ++ rows ∧ ∀ r ∈ rows, provenanceOk r

/-- How a run of `add_gene_name` can change the `name` and `gene_has_name`
tables: both only grow, and every appended association row carries the fixed
provenance constants. -/
def nameEffects (db d : DB) : Prop :=
  (∃ tl, d.name = db.name ++ tl) ∧
  (∃ rows, d.gene_has_name = db.gene_has_name ++ rows ∧ ∀ r ∈ rows, typedProvenanceOk r)

/-- How a run of `add_gene_symbol` can change the `symbol` and
`gene_has_symbol` tables. -/
def symbolEffects (db d : DB) : Prop :=
  (∃ tl, d.symbol = db.symbol ++ tl) ∧
  (∃ rows, d.gene_has_symbol = db.gene_has_symbol ++ rows ∧ ∀ r ∈ rows, typedProvenanceOk r)

/-! ## Helper lemmas -/

theorem assocPairs_append (t s : List AssocRow) :
    assocPairs (t ++ s) = assocPairs t ++ assocPairs s :=
  List.map_append _ _ _

theorem typedAssocPairs_append (t s : List TypedAssocRow) :
    typedAssocPairs (t ++ s) = typedAssocPairs t ++ typedAssocPairs s :=
  List.map_append _ _ _

theorem insertAssocRows_ok {t t' : List AssocRow} {rs : List AssocRow}
    (h : insertAssocRows t rs = .ok t') : t' = t ++ rs := by
  induction rs generalizing t with
  | nil =>
    simp only [insertAssocRows, Except.ok.injEq] at h
    simp [← h]
  | cons r rs ih =>
    simp only [insertAssocRows] at h
    split at h
    · cases h
    · have := ih h
      simp [this]

theorem insertTypedRows_ok {t t' : List TypedAssocRow} {rs : List TypedAssocRow}
    (h : insertTypedRows t rs = .ok t') : t' = t ++ rs := by
  induction rs generalizing t with
  | nil =>
    simp only [insertTypedRows, Except.ok.injEq] at h
    simp [← h]
  | cons r rs ih =>
    simp only [insertTypedRows] at h
    split at h
    · cases h
    · have := ih h
      simp [this]

theorem insertAssocRows_error_of_mem {t : List AssocRow} {rs : List AssocRow}
    (h : ∃ r ∈ rs, (r.gene_id, r.dim_id) ∈ assocPairs t) :
    insertAssocRows t rs = .error () := by
  induction rs generalizing t with
  | nil => simp at h
  | cons r0 rs ih =>
    obtain ⟨r, hr, hmem⟩ := h
    simp only [insertAssocRows]
    by_cases h0 : (r0.gene_id, r0.dim_id) ∈ assocPairs t
    · rw [if_pos h0]
    · rw [if_neg h0]
      rcases List.mem_cons.mp hr with rfl | hr'
      · exact absurd hmem h0
      · refine ih ⟨r, hr', ?_⟩
        rw [assocPairs_append]
        exact List.mem_append_left _ hmem

theorem locExecutemany_static {data : List (String × String)} :
    ∀ {db d : DB} {c : Nat}, locExecutemany db data = .ok (d, c) →
      d.gene = db.gene ∧ d.location = db.location ∧
      d.assembly_has_location = db.assembly_has_location := by
  induction data with
  | nil =>
    intro db d c h
    simp only [locExecutemany, Except.ok.injEq, Prod.mk.injEq] at h
    rw [← h.1]
    exact ⟨rfl, rfl, rfl⟩
  | cons it rest ih =>
    intro db d c h
    obtain ⟨p, l⟩ := it
    simp only [locExecutemany] at h
    split at h
    · cases h
    · split at h
      · cases h
      · rename_i t _ d0 c0 heq
        simp only [Except.ok.injEq, Prod.mk.injEq] at h
        obtain ⟨rfl, -⟩ := h
        simpa using ih heq

theorem ltExecutemany_static {data : List (String × String)} :
    ∀ {db d : DB} {c : Nat}, ltExecutemany db data = .ok (d, c) →
      d.gene = db.gene ∧ d.locus_type = db.locus_type := by
  induction data with
  | nil =>
    intro db d c h
    simp only [ltExecutemany, Except.ok.injEq, Prod.mk.injEq] at h
    rw [← h.1]
    exact ⟨rfl, rfl⟩
  | cons it rest ih =>
    intro db d c h
    obtain ⟨p, l⟩ := it
    simp only [ltExecutemany] at h
    split at h
    · cases h
    · split at h
      · cases h
      · rename_i t _ d0 c0 heq
        simp only [Except.ok.injEq, Prod.mk.injEq] at h
        obtain ⟨rfl, -⟩ := h
        simpa using ih heq

/-! ## C10: the empty batch -/

/-- C10: on the empty input list, `add_gene_name` and `add_gene_symbol`
return normally with the database untouched, no warning, no exception, and
no reconciliation read (the tally 0 equals the length 0, so the audit pass
is skipped). -/
theorem c10_empty_batch_is_noop (db : DB) :
    add_gene_name db [] = ⟨db, none, [], 0⟩ ∧
    add_gene_symbol db [] = ⟨db, none, [], 0⟩ := by
  constructor
  · simp [add_gene_name, nameLoop]
  · simp [add_gene_symbol, symbolLoop]

/-! ## C1: the fully successful path pays no audit cost -/

/-- C1: whenever the reported affected-row count (joined bulk inserters) or
the completed step-2 tally (create-then-link inserters) equals the input
length, the function returns normally with no warning, no exception, and no
reconciliation read: the audit pass is skipped entirely. -/
theorem c1_full_success_skips_audit
    (dbL dbT dbN dbS dbL1 dbT1 dbN1 dbS1 : DB)
    (dataL dataT : List (String × String))
    (dataN dataS : List (String × String × String))
    (hL : locExecutemany dbL dataL = .ok (dbL1, dataL.length))
    (hT : ltExecutemany dbT dataT = .ok (dbT1, dataT.length))
    (hN : nameLoop dbN 0 dataN = .ok (dbN1, dataN.length))
    (hS : symbolLoop dbS 0 dataS = .ok (dbS1, dataS.length)) :
    add_gene_location dbL dataL = ⟨dbL1, none, [], 0⟩ ∧
    add_gene_locus_type dbT dataT = ⟨dbT1, none, [], 0⟩ ∧
    add_gene_name dbN dataN = ⟨dbN1, none, [], 0⟩ ∧
    add_gene_symbol dbS dataS = ⟨dbS1, none, [], 0⟩ := by
  refine ⟨?_, ?_, ?_, ?_⟩
  · simp [add_gene_location, hL]
  · simp [add_gene_locus_type, hT]
  · simp [add_gene_name, hN]
  · simp [add_gene_symbol, hS]

/-- Witness for C1 at concrete inputs: one resolvable pair/triple per
function on the database `wdb`. -/
theorem c1_witness :
    add_gene_location wdb [("P1", "LocA")] = ⟨wdbLoc1, none, [], 0⟩ ∧
    add_gene_locus_type wdb [("P1", "LT")] = ⟨wdbLt1, none, [], 0⟩ ∧
    add_gene_name wdb [("P1", "N", "approved")] = ⟨wdbName1, none, [], 0⟩ ∧
    add_gene_symbol wdb [("P1", "S", "approved")] = ⟨wdbSym1, none, [], 0⟩ :=
  c1_full_success_skips_audit wdb wdb wdb wdb wdbLoc1 wdbLt1 wdbName1 wdbSym1
    [("P1", "LocA")] [("P1", "LT")] [("P1", "N", "approved")] [("P1", "S", "approved")]
    rfl rfl rfl rfl

/-! ## C2: the consistency check -/

/-- C2: when the affected-row count (resp. running tally) mismatches the
input length yet the reconciliation pass classifies no item as unsuccessful,
the call raises the consistency `RuntimeError` (never a mere warning); and
whenever at least one unsuccessful item is found, no such error is raised. -/
theorem c2_consistency_violation
    (dbA dbA1 dbB dbB1 dbC dbC1 dbD dbD1 : DB)
    (dataA dataB : List (String × String))
    (dataC dataD : List (String × String × String))
    (aA aB cC cD : Nat)
    (hA : locExecutemany dbA dataA = .ok (dbA1, aA))
    (hA2 : aA ≠ dataA.length)
    (hA3 : dataA.filter (locationUnsuccessful dbA1) = [])
    (hB : locExecutemany dbB dataB = .ok (dbB1, aB))
    (hB2 : aB ≠ dataB.length)
    (hB3 : dataB.filter (locationUnsuccessful dbB1) ≠ [])
    (hC : nameLoop dbC 0 dataC = .ok (dbC1, cC))
    (hC2 : cC ≠ dataC.length)
    (hC3 : dataC.filter (nameUnsuccessful dbC1) = [])
    (hD : nameLoop dbD 0 dataD = .ok (dbD1, cD))
    (hD2 : cD ≠ dataD.length)
    (hD3 : dataD.filter (nameUnsuccessful dbD1) ≠ []) :
    add_gene_location dbA dataA
      = ⟨dbA1, some (.runtimeError (locationConsistencyMsg aA dataA.length)), [],
          1 + dataA.length⟩ ∧
    (add_gene_location dbB dataB).error = none ∧
    add_gene_name dbC dataC
      = ⟨dbC1, some (.runtimeError nameConsistencyMsg), [], 1 + dataC.length⟩ ∧
    (add_gene_name dbD dataD).error = none := by
  refine ⟨?_, ?_, ?_, ?_⟩
  · simp [add_gene_location, hA, hA2, hA3]
  · simp [add_gene_location, hB, hB2, hB3]
  · simp [add_gene_name, hC, hC2, hC3]
  · simp [add_gene_name, hD, hD2, hD3]

/-- Witness for C2 at concrete inputs: `wdbGhost`/`wdbTwin` make the counting
check fail with an empty unsuccessful set (the error side), `wdb` with an
unknown gene makes it fail with a non-empty one (the warning side). -/
theorem c2_witness :
    add_gene_location wdbGhost [("P1", "LocA")]
      = ⟨wdbGhost, some (.runtimeError (locationConsistencyMsg 0 1)), [], 2⟩ ∧
    (add_gene_location wdb [("P1", "LocA"), ("P9", "LocA")]).error = none ∧
    add_gene_name wdbTwin [("P1", "N", "approved")]
      = ⟨wdbTwin1, some (.runtimeError nameConsistencyMsg), [], 2⟩ ∧
    (add_gene_name wdb [("P9", "N", "x")]).error = none :=
  c2_consistency_violation wdbGhost wdbGhost wdb wdbLoc1 wdbTwin wdbTwin1 wdb wdbOrphan
    [("P1", "LocA")] [("P1", "LocA"), ("P9", "LocA")]
    [("P1", "N", "approved")] [("P9", "N", "x")]
    0 1 2 0
    rfl (by decide) (by decide)
    rfl (by decide) (by decide)
    rfl (by decide) (by decide)
    rfl (by decide) (by decide)

/-! ## C3: unresolved items are reported in one warning -/

/-- C3: when the joined bulk inserters run reconciliation and some item
references an unknown gene or an unknown dimension name, the call raises
nothing and returns normally, emitting exactly one warning that lists the
unsuccessful items; the unsuccessful items are exactly the input items whose
re-resolved pair is not among the persisted association pairs, and every
unknown-key item is among them. -/
theorem c3_unknown_keys_single_warning
    (dbL dbL1 dbT dbT1 : DB) (dataL dataT : List (String × String)) (aL aT : Nat)
    (itL itT : String × String)
    (hLex : locExecutemany dbL dataL = .ok (dbL1, aL))
    (hLne : aL ≠ dataL.length)
    (hLmem : itL ∈ dataL)
    (hLunk : (∀ g ∈ dbL.gene, g.2 ≠ itL.1) ∨ (∀ l ∈ dbL.location, l.2 ≠ itL.2))
    (hTex : ltExecutemany dbT dataT = .ok (dbT1, aT))
    (hTne : aT ≠ dataT.length)
    (hTmem : itT ∈ dataT)
    (hTunk : (∀ g ∈ dbT.gene, g.2 ≠ itT.1) ∨ (∀ l ∈ dbT.locus_type, l.2 ≠ itT.2)) :
    (add_gene_location dbL dataL
        = ⟨dbL1, none, [locationWarning (dataL.filter (locationUnsuccessful dbL1))],
            1 + dataL.length⟩ ∧
      itL ∈ dataL.filter (locationUnsuccessful dbL1) ∧
      ∀ it, it ∈ dataL.filter (locationUnsuccessful dbL1) ↔
        it ∈ dataL ∧ locationUnsuccessful dbL1 it = true) ∧
    (add_gene_locus_type dbT dataT
        = ⟨dbT1, none, [locusTypeWarning (dataT.filter (locusTypeUnsuccessful dbT1))],
            1 + dataT.length⟩ ∧
      itT ∈ dataT.filter (locusTypeUnsuccessful dbT1) ∧
      ∀ it, it ∈ dataT.filter (locusTypeUnsuccessful dbT1) ↔
        it ∈ dataT ∧ locusTypeUnsuccessful dbT1 it = true) := by
  have hLstat := locExecutemany_static hLex
  have hLres : locationAuditResolve dbL1 itL.1 itL.2 = none := by
    unfold locationAuditResolve
    rcases hLunk with hg | hl
    · have : dbL1.gene.filter (fun g => g.2 = itL.1) = [] := by
        rw [hLstat.1]
        exact List.filter_eq_nil_iff.mpr (by simpa using hg)
      simp [this]
    · have : dbL1.location.filter (fun l => l.2 = itL.2) = [] := by
        rw [hLstat.2.1]
        exact List.filter_eq_nil_iff.mpr (by simpa using hl)
      simp [this]
  have hLbad : locationUnsuccessful dbL1 itL = true := by
    unfold locationUnsuccessful
    rw [hLres]
  have hLin : itL ∈ dataL.filter (locationUnsuccessful dbL1) :=
    List.mem_filter.mpr ⟨hLmem, hLbad⟩
  have hLnonempty : dataL.filter (locationUnsuccessful dbL1) ≠ [] :=
    List.ne_nil_of_mem hLin
  have hTstat := ltExecutemany_static hTex
  have hTres : locusTypeAuditResolve dbT1 itT.1 itT.2 = none := by
    unfold locusTypeAuditResolve
    rcases hTunk with hg | hl
    · have : dbT1.gene.filter (fun g => g.2 = itT.1) = [] := by
        rw [hTstat.1]
        exact List.filter_eq_nil_iff.mpr (by simpa using hg)
      simp [this]
    · have : dbT1.locus_type.filter (fun l => l.2 = itT.2) = [] := by
        rw [hTstat.2]
        exact List.filter_eq_nil_iff.mpr (by simpa using hl)
      simp [this]
  have hTbad : locusTypeUnsuccessful dbT1 itT = true := by
    unfold locusTypeUnsuccessful
    rw [hTres]
  have hTin : itT ∈ dataT.filter (locusTypeUnsuccessful dbT1) :=
    List.mem_filter.mpr ⟨hTmem, hTbad⟩
  have hTnonempty : dataT.filter (locusTypeUnsuccessful dbT1) ≠ [] :=
    List.ne_nil_of_mem hTin
  refine ⟨⟨?_, hLin, fun it => List.mem_filter⟩, ⟨?_, hTin, fun it => List.mem_filter⟩⟩
  · simp [add_gene_location, hLex, hLne, hLnonempty]
  · simp [add_gene_locus_type, hTex, hTne, hTnonempty]

/-- Witness for C3: batches on `wdb` holding one resolvable item and one item
with the unknown gene `P9`. -/
theorem c3_witness :
    (add_gene_location wdb [("P1", "LocA"), ("P9", "LocA")]
        = ⟨wdbLoc1, none, [locationWarning [("P9", "LocA")]], 3⟩ ∧
      ("P9", "LocA") ∈ [("P9", "LocA")]) ∧
    (add_gene_locus_type wdb [("P1", "LT"), ("P9", "LT")]
        = ⟨wdbLt1, none, [locusTypeWarning [("P9", "LT")]], 3⟩ ∧
      ("P9", "LT") ∈ [("P9", "LT")]) := by
  have h := c3_unknown_keys_single_warning wdb wdbLoc1 wdb wdbLt1
    [("P1", "LocA"), ("P9", "LocA")] [("P1", "LT"), ("P9", "LT")] 1 1
    ("P9", "LocA") ("P9", "LT")
    rfl (by decide) (by decide) (Or.inl (by decide))
    rfl (by decide) (by decide) (Or.inl (by decide))
  refine ⟨⟨?_, by decide⟩, ⟨?_, by decide⟩⟩
  · have := h.1.1
    simpa using this
  · have := h.2.1
    simpa using this

/-! ## C4: duplicate associations abort the joined bulk inserters -/

theorem locExecutemany_error_of_preexisting {data : List (String × String)} :
    ∀ {db : DB},
      (∃ it ∈ data, ∃ pr ∈ locationSelect db it.1 it.2, pr ∈ assocPairs db.gene_has_location) →
      ∃ d, locExecutemany db data = .error d := by
  induction data with
  | nil => intro db h; simp at h
  | cons it0 rest ih =>
    intro db h
    obtain ⟨p0, l0⟩ := it0
    simp only [locExecutemany]
    cases hins : insertAssocRows db.gene_has_location (locationSelectRows db p0 l0) with
    | error e => exact ⟨db, rfl⟩
    | ok t =>
      have ht := insertAssocRows_ok hins
      obtain ⟨it, hit, pr, hpr, hpre⟩ := h
      rcases List.mem_cons.mp hit with rfl | hit'
      · exfalso
        have herr : insertAssocRows db.gene_has_location (locationSelectRows db p0 l0)
            = .error () := by
          refine insertAssocRows_error_of_mem
            ⟨⟨pr.1, pr.2, 1, 1, "internal"⟩, ?_, by simpa using hpre⟩
          unfold locationSelectRows
          exact List.mem_map.mpr ⟨pr, hpr, rfl⟩
        rw [herr] at hins
        cases hins
      · have hpre' : pr ∈ assocPairs ({ db with gene_has_location := t } : DB).gene_has_location := by
          show pr ∈ assocPairs t
          rw [ht, assocPairs_append]
          exact List.mem_append_left _ hpre
        obtain ⟨d, hd⟩ := @ih { db with gene_has_location := t } ⟨it, hit', pr, hpr, hpre'⟩
        exact ⟨d, by simp [hd]⟩

theorem ltExecutemany_error_of_preexisting {data : List (String × String)} :
    ∀ {db : DB},
      (∃ it ∈ data, ∃ pr ∈ locusTypeSelect db it.1 it.2, pr ∈ assocPairs db.gene_has_locus_type) →
      ∃ d, ltExecutemany db data = .error d := by
  induction data with
  | nil => intro db h; simp at h
  | cons it0 rest ih =>
    intro db h
    obtain ⟨p0, l0⟩ := it0
    simp only [ltExecutemany]
    cases hins : insertAssocRows db.gene_has_locus_type (locusTypeSelectRows db p0 l0) with
    | error e => exact ⟨db, rfl⟩
    | ok t =>
      have ht := insertAssocRows_ok hins
      obtain ⟨it, hit, pr, hpr, hpre⟩ := h
      rcases List.mem_cons.mp hit with rfl | hit'
      · exfalso
        have herr : insertAssocRows db.gene_has_locus_type (locusTypeSelectRows db p0 l0)
            = .error () := by
          refine insertAssocRows_error_of_mem
            ⟨⟨pr.1, pr.2, 1, 1, "internal"⟩, ?_, by simpa using hpre⟩
          unfold locusTypeSelectRows
          exact List.mem_map.mpr ⟨pr, hpr, rfl⟩
        rw [herr] at hins
        cases hins
      · have hpre' : pr ∈ assocPairs ({ db with gene_has_locus_type := t } : DB).gene_has_locus_type := by
          show pr ∈ assocPairs t
          rw [ht, assocPairs_append]
          exact List.mem_append_left _ hpre
        obtain ⟨d, hd⟩ := @ih { db with gene_has_locus_type := t } ⟨it, hit', pr, hpr, hpre'⟩
        exact ⟨d, by simp [hd]⟩

/-- C4: a batch containing an item that resolves to an association pair
already persisted makes the batched write hit the uniqueness constraint; the
joined bulk inserter translates it into the duplicate-association
`ValueError` and aborts, returning no warning and running no audit read. -/
theorem c4_duplicate_association_aborts
    (dbL dbT : DB) (dataL dataT : List (String × String))
    (hL : ∃ it ∈ dataL, ∃ pr ∈ locationSelect dbL it.1 it.2,
      pr ∈ assocPairs dbL.gene_has_location)
    (hT : ∃ it ∈ dataT, ∃ pr ∈ locusTypeSelect dbT it.1 it.2,
      pr ∈ assocPairs dbT.gene_has_locus_type) :
    ((add_gene_location dbL dataL).error = some (.valueError dupLocationMsg) ∧
      (add_gene_location dbL dataL).warnings = [] ∧
      (add_gene_location dbL dataL).auditReads = 0) ∧
    ((add_gene_locus_type dbT dataT).error = some (.valueError dupLocusTypeMsg) ∧
      (add_gene_locus_type dbT dataT).warnings = [] ∧
      (add_gene_locus_type dbT dataT).auditReads = 0) := by
  obtain ⟨dL, hdL⟩ := locExecutemany_error_of_preexisting hL
  obtain ⟨dT, hdT⟩ := ltExecutemany_error_of_preexisting hT
  constructor
  · simp [add_gene_location, hdL]
  · simp [add_gene_locus_type, hdT]

/-- Witness for C4: batches whose single item `(P1, LocA)` / `(P1, LT)`
resolves to the pair `(1, 2)` / `(1, 3)` already persisted in `wdbDup`. -/
theorem c4_witness :
    ((add_gene_location wdbDup [("P1", "LocA")]).error
        = some (.valueError dupLocationMsg) ∧
      (add_gene_location wdbDup [("P1", "LocA")]).warnings = [] ∧
      (add_gene_location wdbDup [("P1", "LocA")]).auditReads = 0) ∧
    ((add_gene_locus_type wdbDup [("P1", "LT")]).error
        = some (.valueError dupLocusTypeMsg) ∧
      (add_gene_locus_type wdbDup [("P1", "LT")]).warnings = [] ∧
      (add_gene_locus_type wdbDup [("P1", "LT")]).auditReads = 0) :=
  c4_duplicate_association_aborts wdbDup wdbDup [("P1", "LocA")] [("P1", "LT")]
    ⟨("P1", "LocA"), by decide, (1, 2), by decide, by decide⟩
    ⟨("P1", "LT"), by decide, (1, 3), by decide, by decide⟩

/-! ## C5: duplicate literals abort the create-then-link inserters -/

theorem nameLoop_append (as bs : List (String × String × String)) :
    ∀ (db : DB) (cnt : Nat), nameLoop db cnt (as ++ bs) =
      match nameLoop db cnt as with
      | .error e => .error e
      | .ok (d, c) => nameLoop d c bs := by
  induction as with
  | nil => intro db cnt; rfl
  | cons a as ih =>
    intro db cnt
    simp only [List.cons_append, nameLoop]
    cases nameStep db cnt a with
    | error e => rfl
    | ok dc =>
      obtain ⟨d, c⟩ := dc
      exact ih d c

theorem symbolLoop_append (as bs : List (String × String × String)) :
    ∀ (db : DB) (cnt : Nat), symbolLoop db cnt (as ++ bs) =
      match symbolLoop db cnt as with
      | .error e => .error e
      | .ok (d, c) => symbolLoop d c bs := by
  induction as with
  | nil => intro db cnt; rfl
  | cons a as ih =>
    intro db cnt
    simp only [List.cons_append, symbolLoop]
    cases symbolStep db cnt a with
    | error e => rfl
    | ok dc =>
      obtain ⟨d, c⟩ := dc
      exact ih d c

theorem nameStep_dup (db : DB) (cnt : Nat) (p nm t : String) (h : nm ∈ nameLiterals db) :
    nameStep db cnt (p, nm, t) = .error (db, .valueError (dupNameMsg nm)) := by
  simp [nameStep, h]

theorem symbolStep_dup (db : DB) (cnt : Nat) (p sym t : String) (h : sym ∈ symbolLiterals db) :
    symbolStep db cnt (p, sym, t) = .error (db, .valueError (dupSymbolMsg sym)) := by
  simp [symbolStep, h]

/-- C5: when a create-then-link inserter reaches a triple whose literal value
is already in the dimension table, step 1 hits the uniqueness constraint and
the call raises the duplicate-literal `ValueError` at once: the database at
the raise is exactly the state left by the already-processed triples (they
remain written, and no association write is attempted for the failing triple
or any later one), with no warning and no audit read. -/
theorem c5_duplicate_literal_aborts
    (dbN dbN1 dbS dbS1 : DB) (cN cS : Nat)
    (preN restN preS restS : List (String × String × String))
    (pN nmN tN pS syS tS : String)
    (hpreN : nameLoop dbN 0 preN = .ok (dbN1, cN))
    (hdupN : nmN ∈ nameLiterals dbN1)
    (hpreS : symbolLoop dbS 0 preS = .ok (dbS1, cS))
    (hdupS : syS ∈ symbolLiterals dbS1) :
    add_gene_name dbN (preN ++ (pN, nmN, tN) :: restN)
      = ⟨dbN1, some (.valueError (dupNameMsg nmN)), [], 0⟩ ∧
    add_gene_symbol dbS (preS ++ (pS, syS, tS) :: restS)
      = ⟨dbS1, some (.valueError (dupSymbolMsg syS)), [], 0⟩ := by
  have h1 : nameLoop dbN 0 (preN ++ (pN, nmN, tN) :: restN)
      = .error (dbN1, .valueError (dupNameMsg nmN)) := by
    rw [nameLoop_append, hpreN]
    simp [nameLoop, nameStep_dup dbN1 cN pN nmN tN hdupN]
  have h2 : symbolLoop dbS 0 (preS ++ (pS, syS, tS) :: restS)
      = .error (dbS1, .valueError (dupSymbolMsg syS)) := by
    rw [symbolLoop_append, hpreS]
    simp [symbolLoop, symbolStep_dup dbS1 cS pS syS tS hdupS]
  constructor
  · simp [add_gene_name, h1]
  · simp [add_gene_symbol, h2]

/-- Witness for C5: a second triple reuses the literal written by the first,
so the call aborts with the first triple's writes retained. -/
theorem c5_witness :
    add_gene_name wdb [("P1", "N", "approved"), ("P2", "N", "alias")]
      = ⟨wdbName1, some (.valueError (dupNameMsg "N")), [], 0⟩ ∧
    add_gene_symbol wdb [("P1", "S", "approved"), ("P2", "S", "alias")]
      = ⟨wdbSym1, some (.valueError (dupSymbolMsg "S")), [], 0⟩ :=
  c5_duplicate_literal_aborts wdb wdbName1 wdb wdbSym1 1 1
    [("P1", "N", "approved")] [] [("P1", "S", "approved")] []
    "P2" "N" "alias" "P2" "S" "alias"
    rfl (by decide) rfl (by decide)

/-! ## C6: step-2 failures and the catch-all handler -/

/-- Counterexample to C6: on `wdbClash` the step-2 association insert for the
single triple fails precisely with a uniqueness violation (its row's
`(gene_id, name_id)` pair `(5, 1)` is already persisted), yet
`add_gene_name` reports it as the link-failure `RuntimeError` — the source's
`except psycopg2.Error` clause catches uniqueness violations too, so the
claimed exclusion is false. -/
theorem c6_counterexample :
    (add_gene_name wdbClash [("P1", "N", "approved")]).error
        = some (.runtimeError (nameLinkFailMsg 1 "approved" "P1")) ∧
    "N" ∉ nameLiterals wdbClash ∧
    (∃ r ∈ nameLinkRows wdbClash 1 "approved" "P1",
       (r.gene_id, r.dim_id) ∈ typedAssocPairs wdbClash.gene_has_name) := by
  refine ⟨by decide, by decide, ⟨⟨5, 1, "approved", 1, 1, "internal"⟩, by decide, by decide⟩⟩

/-- C6 amended: in both create-then-link inserters a step-2
association-write failure of any database-error kind — uniqueness violations
included — is reported as the link-failure `RuntimeError` and aborts the
sequence at the state left after step 1 of the failing triple. -/
theorem c6_amended_any_step2_failure_is_link_failure
    (dbN dbN1 dbS dbS1 : DB) (cN cS : Nat)
    (preN restN preS restS : List (String × String × String))
    (pN nmN tN pS syS tS : String)
    (hpreN : nameLoop dbN 0 preN = .ok (dbN1, cN))
    (hfreshN : nmN ∉ nameLiterals dbN1)
    (hfailN : insertTypedRows dbN1.gene_has_name
        (nameLinkRows
          { dbN1 with name := dbN1.name ++ [(dbN1.next_name_id, nmN)], next_name_id := dbN1.next_name_id + 1 }
          dbN1.next_name_id tN pN) = .error ())
    (hpreS : symbolLoop dbS 0 preS = .ok (dbS1, cS))
    (hfreshS : syS ∉ symbolLiterals dbS1)
    (hfailS : insertTypedRows dbS1.gene_has_symbol
        (symbolLinkRows
          { dbS1 with symbol := dbS1.symbol ++ [(dbS1.next_symbol_id, syS)], next_symbol_id := dbS1.next_symbol_id + 1 }
          dbS1.next_symbol_id tS pS) = .error ()) :
    add_gene_name dbN (preN ++ (pN, nmN, tN) :: restN)
      = ⟨{ dbN1 with name := dbN1.name ++ [(dbN1.next_name_id, nmN)], next_name_id := dbN1.next_name_id + 1 },
         some (.runtimeError (nameLinkFailMsg dbN1.next_name_id tN pN)), [], 0⟩ ∧
    add_gene_symbol dbS (preS ++ (pS, syS, tS) :: restS)
      = ⟨{ dbS1 with symbol := dbS1.symbol ++ [(dbS1.next_symbol_id, syS)], next_symbol_id := dbS1.next_symbol_id + 1 },
         some (.runtimeError (symbolLinkFailMsg dbS1.next_symbol_id tS pS)), [], 0⟩ := by
  have hstepN : nameStep dbN1 cN (pN, nmN, tN)
      = .error ({ dbN1 with name := dbN1.name ++ [(dbN1.next_name_id, nmN)], next_name_id := dbN1.next_name_id + 1 },
                .runtimeError (nameLinkFailMsg dbN1.next_name_id tN pN)) := by
    simp only [nameStep]
    rw [if_neg hfreshN]
    rw [hfailN]
  have h1 : nameLoop dbN 0 (preN ++ (pN, nmN, tN) :: restN)
      = .error ({ dbN1 with name := dbN1.name ++ [(dbN1.next_name_id, nmN)], next_name_id := dbN1.next_name_id + 1 },
                .runtimeError (nameLinkFailMsg dbN1.next_name_id tN pN)) := by
    rw [nameLoop_append, hpreN]
    simp [nameLoop, hstepN]
  have hstepS : symbolStep dbS1 cS (pS, syS, tS)
      = .error ({ dbS1 with symbol := dbS1.symbol ++ [(dbS1.next_symbol_id, syS)], next_symbol_id := dbS1.next_symbol_id + 1 },
                .runtimeError (symbolLinkFailMsg dbS1.next_symbol_id tS pS)) := by
    simp only [symbolStep]
    rw [if_neg hfreshS]
    rw [hfailS]
  have h2 : symbolLoop dbS 0 (preS ++ (pS, syS, tS) :: restS)
      = .error ({ dbS1 with symbol := dbS1.symbol ++ [(dbS1.next_symbol_id, syS)], next_symbol_id := dbS1.next_symbol_id + 1 },
                .runtimeError (symbolLinkFailMsg dbS1.next_symbol_id tS pS)) := by
    rw [symbolLoop_append, hpreS]
    simp [symbolLoop, hstepS]
  constructor
  · simp [add_gene_name, h1]
  · simp [add_gene_symbol, h2]

/-- Witness for the amended C6 on the concrete states `wdbClash` and
`wdbClashSym`. -/
theorem c6_amended_witness :
    add_gene_name wdbClash [("P1", "N", "approved")]
      = ⟨{ wdbClash with name := wdbClash.name ++ [(wdbClash.next_name_id, "N")], next_name_id := wdbClash.next_name_id + 1 },
         some (.runtimeError (nameLinkFailMsg wdbClash.next_name_id "approved" "P1")), [], 0⟩ ∧
    add_gene_symbol wdbClashSym [("P1", "S", "approved")]
      = ⟨{ wdbClashSym with symbol := wdbClashSym.symbol ++ [(wdbClashSym.next_symbol_id, "S")], next_symbol_id := wdbClashSym.next_symbol_id + 1 },
         some (.runtimeError (symbolLinkFailMsg wdbClashSym.next_symbol_id "approved" "P1")), [], 0⟩ := by
  have h := c6_amended_any_step2_failure_is_link_failure wdbClash wdbClash wdbClashSym wdbClashSym
    0 0 [] [] [] [] "P1" "N" "approved" "P1" "S" "approved"
    rfl (by decide) rfl rfl (by decide) rfl
  exact ⟨by simpa using h.1, by simpa using h.2⟩

/-! ## C7: write-time versus audit-time resolution -/

theorem flatMap_head_congr {α β : Type} (G : List α) (f f' : α → List β)
    (h : ∀ g ∈ G, (f g).head? = (f' g).head?) :
    (G.flatMap f).head? = (G.flatMap f').head? := by
  induction G with
  | nil => rfl
  | cons g G ih =>
    have hg := h g (List.mem_cons_self g G)
    simp only [List.flatMap_cons]
    cases hf : f g with
    | nil =>
      have hf' : f' g = [] := by
        rw [hf] at hg
        exact (List.head?_eq_none_iff.mp hg.symm)
      simp only [hf', List.nil_append]
      exact ih (fun x hx => h x (List.mem_cons_of_mem _ hx))
    | cons b bs =>
      have hb : (f' g).head? = some b := by rw [← hg, hf]; rfl
      cases hf' : f' g with
      | nil => rw [hf'] at hb; cases hb
      | cons b' bs' =>
        rw [hf'] at hb
        simp only [List.head?_cons, Option.some.injEq] at hb
        simp [hb]

theorem flatMap_head_eq_map_head {α β : Type} (L : List α) (k : α → List β) (c : α → β)
    (h : ∀ x ∈ L, (k x).head? = some (c x)) :
    (L.flatMap k).head? = (L.map c).head? := by
  cases L with
  | nil => rfl
  | cons x xs =>
    have hx := h x (List.mem_cons_self x xs)
    cases hk : k x with
    | nil => rw [hk] at hx; cases hx
    | cons b bs =>
      rw [hk] at hx
      simp only [List.head?_cons, Option.some.injEq] at hx
      simp [hk, hx]

/-- Counterexample to C7: on `wdbNoAsm` (where `LocA` exists in `location`
but is not linked to assembly 1) the write-time resolution of `(P1, LocA)`
produces no pair at all while the audit re-resolution yields `(1, 2)`: the
audit query omits the `assembly_has_location` scoping join, so the two
resolutions are not the same function of the item and the state.  On
`wdbGhost` this is observable: the write legitimately matched nothing, yet
the audit sees the pre-existing pair and the call escalates to the
consistency `RuntimeError`. -/
theorem c7_counterexample :
    locationSelect wdbNoAsm "P1" "LocA" = [] ∧
    locationAuditResolve wdbNoAsm "P1" "LocA" = some (1, 2) ∧
    (add_gene_location wdbGhost [("P1", "LocA")]).error
      = some (.runtimeError (locationConsistencyMsg 0 1)) := by
  refine ⟨by decide, by decide, by decide⟩

/-- C7 amended: the audit re-resolution equals the first row of the
write-time resolution — unconditionally for the gene–locus-type inserter;
for the gene–name and gene–symbol inserters whenever the first dimension row
bearing the literal carries the resolved surrogate id (which holds once
step 1 inserted the fresh literal); and for the gene–location inserter,
whose audit query omits the reference-assembly scoping join of the
write-time select, under the sufficient proviso that every location row
bearing the looked-up name is linked to assembly 1 — a proviso that cannot
be dropped, since without it the resolutions can differ, as the
counterexample shows. -/
theorem c7_amended_resolution_equivalence
    (dbT : DB) (pT lT : String)
    (dbN : DB) (pN nmN tN : String) (iN : Nat)
    (dbS : DB) (pS syS tS : String) (iS : Nat)
    (dbL : DB) (pL lL : String)
    (hname : (dbN.name.filter fun r => r.2 = nmN).head? = some (iN, nmN))
    (hsym : (dbS.symbol.filter fun r => r.2 = syS).head? = some (iS, syS))
    (hasm : ∀ loc ∈ dbL.location, loc.2 = lL → (1, loc.1) ∈ dbL.assembly_has_location) :
    locusTypeAuditResolve dbT pT lT = (locusTypeSelect dbT pT lT).head? ∧
    nameAuditResolve dbN pN nmN = (typedAssocPairs (nameLinkRows dbN iN tN pN)).head? ∧
    symbolAuditResolve dbS pS syS = (typedAssocPairs (symbolLinkRows dbS iS tS pS)).head? ∧
    locationAuditResolve dbL pL lL = (locationSelect dbL pL lL).head? := by
  refine ⟨rfl, ?_, ?_, ?_⟩
  · have hpairs : typedAssocPairs (nameLinkRows dbN iN tN pN)
        = (dbN.gene.filter fun g => g.2 = pN).map fun g => (g.1, iN) := by
      unfold typedAssocPairs nameLinkRows
      rw [List.map_map]
      rfl
    rw [hpairs]
    unfold nameAuditResolve
    refine flatMap_head_eq_map_head _ _ _ ?_
    intro g hg
    rw [List.head?_map, hname]
    rfl
  · have hpairs : typedAssocPairs (symbolLinkRows dbS iS tS pS)
        = (dbS.gene.filter fun g => g.2 = pS).map fun g => (g.1, iS) := by
      unfold typedAssocPairs symbolLinkRows
      rw [List.map_map]
      rfl
    rw [hpairs]
    unfold symbolAuditResolve
    refine flatMap_head_eq_map_head _ _ _ ?_
    intro g hg
    rw [List.head?_map, hsym]
    rfl
  · unfold locationAuditResolve locationSelect
    refine (flatMap_head_congr _ _ _ ?_).symm
    intro g hg
    refine flatMap_head_eq_map_head _ _ _ ?_
    intro loc hloc
    have hloc1 := List.mem_filter.mp hloc
    have hloc2 : loc.2 = lL := by simpa using hloc1.2
    have hmem : (1, loc.1) ∈ dbL.assembly_has_location := hasm loc hloc1.1 hloc2
    have hm2 : (1, loc.1) ∈ dbL.assembly_has_location.filter (fun a => a.1 = 1 ∧ a.2 = loc.1) :=
      List.mem_filter.mpr ⟨hmem, by simp⟩
    obtain ⟨a, as, ha⟩ := List.exists_cons_of_ne_nil (List.ne_nil_of_mem hm2)
    rw [ha]
    rfl

/-- Witness for the amended C7: locus type and location on `wdb` (where
`LocA` is linked to assembly 1), name on `wdbName1` and symbol on `wdbSym1`
(where the literal's first dimension row is the one written at step 1). -/
theorem c7_amended_witness :
    locusTypeAuditResolve wdb "P1" "LT" = (locusTypeSelect wdb "P1" "LT").head? ∧
    nameAuditResolve wdbName1 "P1" "N"
      = (typedAssocPairs (nameLinkRows wdbName1 1 "approved" "P1")).head? ∧
    symbolAuditResolve wdbSym1 "P1" "S"
      = (typedAssocPairs (symbolLinkRows wdbSym1 1 "approved" "P1")).head? ∧
    locationAuditResolve wdb "P1" "LocA" = (locationSelect wdb "P1" "LocA").head? :=
  c7_amended_resolution_equivalence wdb "P1" "LT"
    wdbName1 "P1" "N" "approved" 1
    wdbSym1 "P1" "S" "approved" 1
    wdb "P1" "LocA"
    (by decide) (by decide) (by decide)

/-! ## Effects lemmas for C8 and C9 -/

theorem locationSelectRows_provenance {db : DB} {p l : String} {r : AssocRow}
    (h : r ∈ locationSelectRows db p l) : provenanceOk r := by
  unfold locationSelectRows at h
  obtain ⟨q, -, rfl⟩ := List.mem_map.mp h
  exact ⟨rfl, rfl, rfl⟩

theorem locusTypeSelectRows_provenance {db : DB} {p l : String} {r : AssocRow}
    (h : r ∈ locusTypeSelectRows db p l) : provenanceOk r := by
  unfold locusTypeSelectRows at h
  obtain ⟨q, -, rfl⟩ := List.mem_map.mp h
  exact ⟨rfl, rfl, rfl⟩

theorem nameLinkRows_provenance {db : DB} {i : Nat} {t p : String} {r : TypedAssocRow}
    (h : r ∈ nameLinkRows db i t p) : typedProvenanceOk r := by
  unfold nameLinkRows at h
  obtain ⟨q, -, rfl⟩ := List.mem_map.mp h
  exact ⟨rfl, rfl, rfl⟩

theorem symbolLinkRows_provenance {db : DB} {i : Nat} {t p : String} {r : TypedAssocRow}
    (h : r ∈ symbolLinkRows db i t p) : typedProvenanceOk r := by
  unfold symbolLinkRows at h
  obtain ⟨q, -, rfl⟩ := List.mem_map.mp h
  exact ⟨rfl, rfl, rfl⟩

theorem locExecutemany_effects {data : List (String × String)} :
    ∀ {db : DB},
      (∀ d c, locExecutemany db data = .ok (d, c) → locEffects db d) ∧
      (∀ d, locExecutemany db data = .error d → locEffects db d) := by
  induction data with
  | nil =>
    intro db
    constructor
    · intro d c h
      simp only [locExecutemany, Except.ok.injEq, Prod.mk.injEq] at h
      obtain ⟨rfl, -⟩ := h
      exact ⟨[], by simp, by simp⟩
    · intro d h
      simp [locExecutemany] at h
  | cons it rest ih =>
    intro db
    obtain ⟨p, l⟩ := it
    constructor
    · intro d c h
      simp only [locExecutemany] at h
      split at h
      · cases h
      · split at h
        · cases h
        · rename_i t hins _ d0 c0 hrec
          simp only [Except.ok.injEq, Prod.mk.injEq] at h
          obtain ⟨rfl, -⟩ := h
          have ht := insertAssocRows_ok hins
          obtain ⟨rows1, hr1, hp1⟩ := (@ih { db with gene_has_location := t }).1 d0 c0 hrec
          refine ⟨locationSelectRows db p l ++ rows1, ?_, ?_⟩
          · rw [hr1]
            show t ++ rows1 = _
            rw [ht, List.append_assoc]
          · intro r hr
            rcases List.mem_append.mp hr with hr | hr
            · exact locationSelectRows_provenance hr
            · exact hp1 r hr
    · intro d h
      simp only [locExecutemany] at h
      split at h
      · rename_i hins
        simp only [Except.error.injEq] at h
        obtain rfl := h
        exact ⟨[], by simp, by simp⟩
      · split at h
        · rename_i t hins _ d0 hrec
          simp only [Except.error.injEq] at h
          obtain rfl := h
          have ht := insertAssocRows_ok hins
          obtain ⟨rows1, hr1, hp1⟩ := (@ih { db with gene_has_location := t }).2 d0 hrec
          refine ⟨locationSelectRows db p l ++ rows1, ?_, ?_⟩
          · rw [hr1]
            show t ++ rows1 = _
            rw [ht, List.append_assoc]
          · intro r hr
            rcases List.mem_append.mp hr with hr | hr
            · exact locationSelectRows_provenance hr
            · exact hp1 r hr
        · cases h

theorem ltExecutemany_effects {data : List (String × String)} :
    ∀ {db : DB},
      (∀ d c, ltExecutemany db data = .ok (d, c) → ltEffects db d) ∧
      (∀ d, ltExecutemany db data = .error d → ltEffects db d) := by
  induction data with
  | nil =>
    intro db
    constructor
    · intro d c h
      simp only [ltExecutemany, Except.ok.injEq, Prod.mk.injEq] at h
      obtain ⟨rfl, -⟩ := h
      exact ⟨[], by simp, by simp⟩
    · intro d h
      simp [ltExecutemany] at h
  | cons it rest ih =>
    intro db
    obtain ⟨p, l⟩ := it
    constructor
    · intro d c h
      simp only [ltExecutemany] at h
      split at h
      · cases h
      · split at h
        · cases h
        · rename_i t hins _ d0 c0 hrec
          simp only [Except.ok.injEq, Prod.mk.injEq] at h
          obtain ⟨rfl, -⟩ := h
          have ht := insertAssocRows_ok hins
          obtain ⟨rows1, hr1, hp1⟩ := (@ih { db with gene_has_locus_type := t }).1 d0 c0 hrec
          refine ⟨locusTypeSelectRows db p l ++ rows1, ?_, ?_⟩
          · rw [hr1]
            show t ++ rows1 = _
            rw [ht, List.append_assoc]
          · intro r hr
            rcases List.mem_append.mp hr with hr | hr
            · exact locusTypeSelectRows_provenance hr
            · exact hp1 r hr
    · intro d h
      simp only [ltExecutemany] at h
      split at h
      · rename_i hins
        simp only [Except.error.injEq] at h
        obtain rfl := h
        exact ⟨[], by simp, by simp⟩
      · split at h
        · rename_i t hins _ d0 hrec
          simp only [Except.error.injEq] at h
          obtain rfl := h
          have ht := insertAssocRows_ok hins
          obtain ⟨rows1, hr1, hp1⟩ := (@ih { db with gene_has_locus_type := t }).2 d0 hrec
          refine ⟨locusTypeSelectRows db p l ++ rows1, ?_, ?_⟩
          · rw [hr1]
            show t ++ rows1 = _
            rw [ht, List.append_assoc]
          · intro r hr
            rcases List.mem_append.mp hr with hr | hr
            · exact locusTypeSelectRows_provenance hr
            · exact hp1 r hr
        · cases h

theorem nameStep_effects {db : DB} {cnt : Nat} {it : String × String × String} :
    (∀ d c, nameStep db cnt it = .ok (d, c) → nameEffects db d) ∧
    (∀ d e, nameStep db cnt it = .error (d, e) → nameEffects db d) := by
  obtain ⟨p, nm, t⟩ := it
  by_cases hdup : nm ∈ nameLiterals db
  · constructor
    · intro d c h
      rw [nameStep_dup db cnt p nm t hdup] at h
      cases h
    · intro d e h
      rw [nameStep_dup db cnt p nm t hdup] at h
      simp only [Except.error.injEq, Prod.mk.injEq] at h
      obtain ⟨rfl, -⟩ := h
      exact ⟨⟨[], by simp⟩, ⟨[], by simp, by simp⟩⟩
  · constructor
    · intro d c h
      simp only [nameStep, if_neg hdup] at h
      split at h
      · cases h
      · rename_i t' hins
        simp only [Except.ok.injEq, Prod.mk.injEq] at h
        obtain ⟨rfl, -⟩ := h
        have ht' := insertTypedRows_ok hins
        exact ⟨⟨[(db.next_name_id, nm)], rfl⟩,
          ⟨nameLinkRows
             { db with name := db.name ++ [(db.next_name_id, nm)], next_name_id := db.next_name_id + 1 }
             db.next_name_id t p, ht', fun r hr => nameLinkRows_provenance hr⟩⟩
    · intro d e h
      simp only [nameStep, if_neg hdup] at h
      split at h
      · rename_i hins
        simp only [Except.error.injEq, Prod.mk.injEq] at h
        obtain ⟨rfl, -⟩ := h
        exact ⟨⟨[(db.next_name_id, nm)], rfl⟩, ⟨[], by simp, by simp⟩⟩
      · cases h

theorem symbolStep_effects {db : DB} {cnt : Nat} {it : String × String × String} :
    (∀ d c, symbolStep db cnt it = .ok (d, c) → symbolEffects db d) ∧
    (∀ d e, symbolStep db cnt it = .error (d, e) → symbolEffects db d) := by
  obtain ⟨p, sym, t⟩ := it
  by_cases hdup : sym ∈ symbolLiterals db
  · constructor
    · intro d c h
      rw [symbolStep_dup db cnt p sym t hdup] at h
      cases h
    · intro d e h
      rw [symbolStep_dup db cnt p sym t hdup] at h
      simp only [Except.error.injEq, Prod.mk.injEq] at h
      obtain ⟨rfl, -⟩ := h
      exact ⟨⟨[], by simp⟩, ⟨[], by simp, by simp⟩⟩
  · constructor
    · intro d c h
      simp only [symbolStep, if_neg hdup] at h
      split at h
      · cases h
      · rename_i t' hins
        simp only [Except.ok.injEq, Prod.mk.injEq] at h
        obtain ⟨rfl, -⟩ := h
        have ht' := insertTypedRows_ok hins
        exact ⟨⟨[(db.next_symbol_id, sym)], rfl⟩,
          ⟨symbolLinkRows
             { db with symbol := db.symbol ++ [(db.next_symbol_id, sym)], next_symbol_id := db.next_symbol_id + 1 }
             db.next_symbol_id t p, ht', fun r hr => symbolLinkRows_provenance hr⟩⟩
    · intro d e h
      simp only [symbolStep, if_neg hdup] at h
      split at h
      · rename_i hins
        simp only [Except.error.injEq, Prod.mk.injEq] at h
        obtain ⟨rfl, -⟩ := h
        exact ⟨⟨[(db.next_symbol_id, sym)], rfl⟩, ⟨[], by simp, by simp⟩⟩
      · cases h

theorem nameEffects_trans {db1 db2 db3 : DB}
    (h1 : nameEffects db1 db2) (h2 : nameEffects db2 db3) : nameEffects db1 db3 := by
  obtain ⟨⟨tl1, ha1⟩, ⟨rw1, hb1, hc1⟩⟩ := h1
  obtain ⟨⟨tl2, ha2⟩, ⟨rw2, hb2, hc2⟩⟩ := h2
  refine ⟨⟨tl1 ++ tl2, by rw [ha2, ha1, List.append_assoc]⟩,
    ⟨rw1 ++ rw2, by rw [hb2, hb1, List.append_assoc], ?_⟩⟩
  intro r hr
  rcases List.mem_append.mp hr with hr | hr
  · exact hc1 r hr
  · exact hc2 r hr

theorem symbolEffects_trans {db1 db2 db3 : DB}
    (h1 : symbolEffects db1 db2) (h2 : symbolEffects db2 db3) : symbolEffects db1 db3 := by
  obtain ⟨⟨tl1, ha1⟩, ⟨rw1, hb1, hc1⟩⟩ := h1
  obtain ⟨⟨tl2, ha2⟩, ⟨rw2, hb2, hc2⟩⟩ := h2
  refine ⟨⟨tl1 ++ tl2, by rw [ha2, ha1, List.append_assoc]⟩,
    ⟨rw1 ++ rw2, by rw [hb2, hb1, List.append_assoc], ?_⟩⟩
  intro r hr
  rcases List.mem_append.mp hr with hr | hr
  · exact hc1 r hr
  · exact hc2 r hr

theorem nameLoop_effects {data : List (String × String × String)} :
    ∀ {db : DB} {cnt : Nat},
      (∀ d c, nameLoop db cnt data = .ok (d, c) → nameEffects db d) ∧
      (∀ d e, nameLoop db cnt data = .error (d, e) → nameEffects db d) := by
  induction data with
  | nil =>
    intro db cnt
    constructor
    · intro d c h
      simp only [nameLoop, Except.ok.injEq, Prod.mk.injEq] at h
      obtain ⟨rfl, -⟩ := h
      exact ⟨⟨[], by simp⟩, ⟨[], by simp, by simp⟩⟩
    · intro d e h
      simp [nameLoop] at h
  | cons it rest ih =>
    intro db cnt
    constructor
    · intro d c h
      simp only [nameLoop] at h
      split at h
      · cases h
      · rename_i d1 c1 hstep
        exact nameEffects_trans (nameStep_effects.1 d1 c1 hstep) ((@ih d1 c1).1 d c h)
    · intro d e h
      simp only [nameLoop] at h
      split at h
      · rename_i e1 hstep
        obtain ⟨d1, e1⟩ := e1
        simp only [Except.error.injEq, Prod.mk.injEq] at h
        obtain ⟨rfl, -⟩ := h
        exact nameStep_effects.2 d1 e1 hstep
      · rename_i d1 c1 hstep
        exact nameEffects_trans (nameStep_effects.1 d1 c1 hstep) ((@ih d1 c1).2 d e h)

theorem symbolLoop_effects {data : List (String × String × String)} :
    ∀ {db : DB} {cnt : Nat},
      (∀ d c, symbolLoop db cnt data = .ok (d, c) → symbolEffects db d) ∧
      (∀ d e, symbolLoop db cnt data = .error (d, e) → symbolEffects db d) := by
  induction data with
  | nil =>
    intro db cnt
    constructor
    · intro d c h
      simp only [symbolLoop, Except.ok.injEq, Prod.mk.injEq] at h
      obtain ⟨rfl, -⟩ := h
      exact ⟨⟨[], by simp⟩, ⟨[], by simp, by simp⟩⟩
    · intro d e h
      simp [symbolLoop] at h
  | cons it rest ih =>
    intro db cnt
    constructor
    · intro d c h
      simp only [symbolLoop] at h
      split at h
      · cases h
      · rename_i d1 c1 hstep
        exact symbolEffects_trans (symbolStep_effects.1 d1 c1 hstep) ((@ih d1 c1).1 d c h)
    · intro d e h
      simp only [symbolLoop] at h
      split at h
      · rename_i e1 hstep
        obtain ⟨d1, e1⟩ := e1
        simp only [Except.error.injEq, Prod.mk.injEq] at h
        obtain ⟨rfl, -⟩ := h
        exact symbolStep_effects.2 d1 e1 hstep
      · rename_i d1 c1 hstep
        exact symbolEffects_trans (symbolStep_effects.1 d1 c1 hstep) ((@ih d1 c1).2 d e h)

theorem add_gene_location_effects (db : DB) (data : List (String × String)) :
    locEffects db (add_gene_location db data).db := by
  cases hx : locExecutemany db data with
  | error d =>
    have hdb : (add_gene_location db data).db = d := by simp [add_gene_location, hx]
    rw [hdb]
    exact locExecutemany_effects.2 d hx
  | ok dc =>
    obtain ⟨d, c⟩ := dc
    have hdb : (add_gene_location db data).db = d := by
      simp only [add_gene_location, hx]
      split
      · rfl
      · split <;> rfl
    rw [hdb]
    exact locExecutemany_effects.1 d c hx

theorem add_gene_locus_type_effects (db : DB) (data : List (String × String)) :
    ltEffects db (add_gene_locus_type db data).db := by
  cases hx : ltExecutemany db data with
  | error d =>
    have hdb : (add_gene_locus_type db data).db = d := by simp [add_gene_locus_type, hx]
    rw [hdb]
    exact ltExecutemany_effects.2 d hx
  | ok dc =>
    obtain ⟨d, c⟩ := dc
    have hdb : (add_gene_locus_type db data).db = d := by
      simp only [add_gene_locus_type, hx]
      split
      · rfl
      · split <;> rfl
    rw [hdb]
    exact ltExecutemany_effects.1 d c hx

theorem add_gene_name_effects (db : DB) (data : List (String × String × String)) :
    nameEffects db (add_gene_name db data).db := by
  cases hx : nameLoop db 0 data with
  | error de =>
    obtain ⟨d, e⟩ := de
    have hdb : (add_gene_name db data).db = d := by simp [add_gene_name, hx]
    rw [hdb]
    exact nameLoop_effects.2 d e hx
  | ok dc =>
    obtain ⟨d, c⟩ := dc
    have hdb : (add_gene_name db data).db = d := by
      simp only [add_gene_name, hx]
      split
      · split <;> rfl
      · rfl
    rw [hdb]
    exact nameLoop_effects.1 d c hx

theorem add_gene_symbol_effects (db : DB) (data : List (String × String × String)) :
    symbolEffects db (add_gene_symbol db data).db := by
  cases hx : symbolLoop db 0 data with
  | error de =>
    obtain ⟨d, e⟩ := de
    have hdb : (add_gene_symbol db data).db = d := by simp [add_gene_symbol, hx]
    rw [hdb]
    exact symbolLoop_effects.2 d e hx
  | ok dc =>
    obtain ⟨d, c⟩ := dc
    have hdb : (add_gene_symbol db data).db = d := by
      simp only [add_gene_symbol, hx]
      split
      · split <;> rfl
      · rfl
    rw [hdb]
    exact symbolLoop_effects.1 d c hx

/-! ## C8: fixed provenance constants -/

/-- C8: whatever the input and however the call ends, every association row
present after a run of any of the four writers is either a row that was
already there or carries the hard-coded provenance `creator_id = 1`,
`editor_id = 1`, `status = 'internal'`; no parameter lets a caller vary
these values. -/
theorem c8_fixed_provenance (db : DB)
    (dataL dataT : List (String × String)) (dataN dataS : List (String × String × String)) :
    (∀ r ∈ (add_gene_location db dataL).db.gene_has_location,
       r ∈ db.gene_has_location ∨ provenanceOk r) ∧
    (∀ r ∈ (add_gene_locus_type db dataT).db.gene_has_locus_type,
       r ∈ db.gene_has_locus_type ∨ provenanceOk r) ∧
    (∀ r ∈ (add_gene_name db dataN).db.gene_has_name,
       r ∈ db.gene_has_name ∨ typedProvenanceOk r) ∧
    (∀ r ∈ (add_gene_symbol db dataS).db.gene_has_symbol,
       r ∈ db.gene_has_symbol ∨ typedProvenanceOk r) := by
  refine ⟨?_, ?_, ?_, ?_⟩
  · obtain ⟨rows, hrows, hp⟩ := add_gene_location_effects db dataL
    intro r hr
    rw [hrows] at hr
    rcases List.mem_append.mp hr with hr | hr
    · exact Or.inl hr
    · exact Or.inr (hp r hr)
  · obtain ⟨rows, hrows, hp⟩ := add_gene_locus_type_effects db dataT
    intro r hr
    rw [hrows] at hr
    rcases List.mem_append.mp hr with hr | hr
    · exact Or.inl hr
    · exact Or.inr (hp r hr)
  · obtain ⟨-, rows, hrows, hp⟩ := add_gene_name_effects db dataN
    intro r hr
    rw [hrows] at hr
    rcases List.mem_append.mp hr with hr | hr
    · exact Or.inl hr
    · exact Or.inr (hp r hr)
  · obtain ⟨-, rows, hrows, hp⟩ := add_gene_symbol_effects db dataS
    intro r hr
    rw [hrows] at hr
    rcases List.mem_append.mp hr with hr | hr
    · exact Or.inl hr
    · exact Or.inr (hp r hr)

/-- Witness for C8 on concrete runs over `wdb`: the rows each writer
persisted carry the fixed provenance constants. -/
theorem c8_witness :
    ((⟨1, 2, 1, 1, "internal"⟩ : AssocRow) ∈ wdb.gene_has_location ∨
      provenanceOk ⟨1, 2, 1, 1, "internal"⟩) ∧
    ((⟨1, 1, "approved", 1, 1, "internal"⟩ : TypedAssocRow) ∈ wdb.gene_has_name ∨
      typedProvenanceOk ⟨1, 1, "approved", 1, 1, "internal"⟩) := by
  have h := c8_fixed_provenance wdb [("P1", "LocA")] [("P1", "LT")]
    [("P1", "N", "approved")] [("P1", "S", "approved")]
  exact ⟨h.1 ⟨1, 2, 1, 1, "internal"⟩ (by decide),
    h.2.2.1 ⟨1, 1, "approved", 1, 1, "internal"⟩ (by decide)⟩

/-! ## C9: silent non-matches leave orphan dimension rows -/

/-- C9: when a create-then-link triple's gene does not resolve and its
literal is fresh, the two-step unit completes without raising: step 1 writes
the dimension row, step 2 writes no association row and the running tally is
unchanged; and across any whole run of `add_gene_name`/`add_gene_symbol` the
`name`/`symbol` tables only ever grow, so the orphan dimension row is never
removed (such triples surface only through the reconciliation warning). -/
theorem c9_orphan_dimension_rows
    (dbN dbS : DB) (cntN cntS : Nat) (pN nmN tN pS syS tS : String)
    (hfreshN : nmN ∉ nameLiterals dbN)
    (hnogeneN : ∀ g ∈ dbN.gene, g.2 ≠ pN)
    (hfreshS : syS ∉ symbolLiterals dbS)
    (hnogeneS : ∀ g ∈ dbS.gene, g.2 ≠ pS) :
    nameStep dbN cntN (pN, nmN, tN)
      = .ok ({ dbN with name := dbN.name ++ [(dbN.next_name_id, nmN)], next_name_id := dbN.next_name_id + 1 }, cntN) ∧
    symbolStep dbS cntS (pS, syS, tS)
      = .ok ({ dbS with symbol := dbS.symbol ++ [(dbS.next_symbol_id, syS)], next_symbol_id := dbS.next_symbol_id + 1 }, cntS) ∧
    (∀ (db : DB) (data : List (String × String × String)),
      ∃ tl, (add_gene_name db data).db.name = db.name ++ tl) ∧
    (∀ (db : DB) (data : List (String × String × String)),
      ∃ tl, (add_gene_symbol db data).db.symbol = db.symbol ++ tl) := by
  have hfilN : dbN.gene.filter (fun g => g.2 = pN) = [] :=
    List.filter_eq_nil_iff.mpr (by simpa using hnogeneN)
  have hfilS : dbS.gene.filter (fun g => g.2 = pS) = [] :=
    List.filter_eq_nil_iff.mpr (by simpa using hnogeneS)
  refine ⟨?_, ?_, ?_, ?_⟩
  · simp [nameStep, hfreshN, nameLinkRows, hfilN, insertTypedRows]
  · simp [symbolStep, hfreshS, symbolLinkRows, hfilS, insertTypedRows]
  · intro db data
    exact (add_gene_name_effects db data).1
  · intro db data
    exact (add_gene_symbol_effects db data).1

/-- Witness for C9: triples naming the unknown gene `P9` on `wdb`. -/
theorem c9_witness :
    nameStep wdb 0 ("P9", "N", "x")
      = .ok ({ wdb with name := wdb.name ++ [(wdb.next_name_id, "N")], next_name_id := wdb.next_name_id + 1 }, 0) ∧
    symbolStep wdb 0 ("P9", "S", "x")
      = .ok ({ wdb with symbol := wdb.symbol ++ [(wdb.next_symbol_id, "S")], next_symbol_id := wdb.next_symbol_id + 1 }, 0) := by
  have h := c9_orphan_dimension_rows wdb wdb 0 0 "P9" "N" "x" "P9" "S" "x"
    (by decide) (by decide) (by decide) (by decide)
  exact ⟨h.1, h.2.1⟩

end PgncUpload
